import Mathlib

/-!
Shallow embedding of `src/scripts/csvdeduplicator.py`.

The program has two core pieces:

* `parse_columns_options` (the spec's Column Selector / `Resolve`):
  turns the raw `-r` / `-c` option values plus the table width into a
  validated 1-indexed list of column positions, or exits with an error.
* the deduplication loop in `main` (the spec's Deduplication Engine /
  `Deduplicate`): a single pass over the rows, keyed by the selected
  columns, splitting the rows into kept first occurrences and logged
  duplicate pairs.

Modelling choices:

* Python `sys.exit(message)` failures become `Except ResolveError`.
  The two distinct exit messages of `parse_columns_options` become the
  two constructors of `ResolveError`.
* The `-r` string is split on the hyphen character before any semantics
  happens, and each part is then fed to Python `int`.  We embed the
  option after splitting and token parsing: `r_option` is
  `Option (List (Option Int))`, a token being `some v` when Python
  `int` would return `v` and `none` when it would raise `ValueError`.
  Since the split of a non-empty string is never the empty list,
  `some []` does not arise from the program; the definition still
  totalises it (as a parse failure) and no theorem relies on that case.
* Python `range(a, b)` becomes `intRange a b`.
* Rows are `List String`, keys are `List String` (Python uses a tuple),
  and the `seen_keys` dict becomes an association list with most-recent
  binding first; keys are only inserted when absent, so lookup order is
  immaterial.
* Python's `row[i] if i < len(row) else ""` is `field row i`.  For a
  negative `i` Python would index from the end of the row (or raise),
  but resolved column positions are always at least 1, so `i` is never
  negative on any reachable call; `field` returns `""` for negative `i`
  and theorems about the engine carry the positivity hypothesis.
-/

namespace CsvDedup

/-- The two failure exits of `parse_columns_options`:
`invalidInteger` for line 41 (a `-r` token failed to parse as an
integer) and `noValidColumns` for line 54 (no column survived the
range filter). -/
inductive ResolveError where
  | invalidInteger
  | noValidColumns
  deriving DecidableEq, Repr

/-- Python `range(start, stop)` as a list of integers. -/
def intRange (start stop : Int) : List Int :=
  (List.range (stop - start).toNat).map (fun (i : Nat) => start + (i : Int))

/-- Python `[int(x) for x in parts]`: all tokens parsed, or the first
`ValueError` aborts the whole comprehension. -/
def parseAll : List (Option Int) → Option (List Int)
  | [] => some []
  | none :: _ => none
  | some v :: rest => (parseAll rest).map (fun vs => v :: vs)

/-- The raw candidate column list computed by lines 29-49 of
`parse_columns_options`, before the range filter; `none` when the
`int` conversion raises `ValueError` (caught at line 40). -/
def rawColumns (r_option : Option (List (Option Int))) (c_option : Option Int)
    (total_columns : Int) : Option (List Int) :=
  match r_option with
  | some parts =>
    match c_option with
    | some c =>
      match parts.headD none with
      | some start => some (intRange start (start + c))
      | none => none
    | none => parseAll parts
  | none =>
    match c_option with
    | some c => some (intRange 1 (1 + c))
    | none => some (intRange 1 (total_columns + 1))

/-- Line 52's comprehension condition `1 <= col <= total_columns`. -/
def inTableRange (total_columns col : Int) : Bool :=
  decide (1 ≤ col) && decide (col ≤ total_columns)

/-- Lines 29-55 of the source: compute the raw candidate list, filter
it to the columns within `[1, total_columns]` (line 52), and fail when
a token did not parse (line 41) or when nothing survives the filter
(line 54). -/
def parse_columns_options (r_option : Option (List (Option Int))) (c_option : Option Int)
    (total_columns : Int) : Except ResolveError (List Int) :=
  match rawColumns r_option c_option total_columns with
  | none => Except.error ResolveError.invalidInteger
  | some columns =>
    if (columns.filter (inTableRange total_columns)).isEmpty
    then Except.error ResolveError.noValidColumns
    else Except.ok (columns.filter (inTableRange total_columns))

/-- Python `row[i] if i < len(row) else ""` for a 0-indexed `i : Int`.
Negative `i` (which Python would treat as indexing from the end) is
unreachable from resolved columns and yields `""` here. -/
def field (row : List String) (i : Int) : String :=
  if h : 0 ≤ i ∧ i.toNat < row.length then row.get ⟨i.toNat, h.2⟩ else ""

/-- Line 125: `tuple(row[i] if i < len(row) else "" for i in col_indices)`
where `col_indices = [col - 1 for col in cols_to_use]` (line 111). -/
def buildKey (cols : List Int) (row : List String) : List String :=
  cols.map (fun col => field row (col - 1))

/-- Lines 129/133: `row[0] if len(row) > 0 else ""`. -/
def identity : List String → String
  | [] => ""
  | x :: _ => x

/-- Lookup in the `seen_keys` dictionary (modelled as an association
list, most recent binding first). -/
def lookupKey (k : List String) : List (List String × String) → Option String
  | [] => none
  | (k2, v) :: rest => if k2 = k then some v else lookupKey k rest

/-- The loop of lines 123-134: one pass over the rows, threading the
`seen_keys` table, returning `(deduped_rows, duplicate_pairs)` in
input order. -/
def dedupAux (cols : List Int) :
    List (List String) → List (List String × String) →
    List (List String) × List (String × String)
  | [], _ => ([], [])
  | row :: rest, seen =>
    match lookupKey (buildKey cols row) seen with
    | some original_value =>
      let out := dedupAux cols rest seen
      (out.1, (original_value, identity row) :: out.2)
    | none =>
      let out := dedupAux cols rest ((buildKey cols row, identity row) :: seen)
      (row :: out.1, out.2)

/-- The Deduplication Engine: lines 113-134 with an initially empty
`seen_keys`. -/
def deduplicate (rows : List (List String)) (cols : List Int) :
    List (List String) × List (String × String) :=
  dedupAux cols rows []

/-- Spec-side description of DedupedRows, written from the spec's
words: a row is kept exactly when its Key has not occurred among the
keys of the earlier rows (`past`). -/
def specKeep (cols : List Int) : List (List String) → List (List String) → List (List String)
  | _, [] => []
  | past, row :: rest =>
    if buildKey cols row ∈ past.map (buildKey cols)
    then specKeep cols (past ++ [row]) rest
    else row :: specKeep cols (past ++ [row]) rest

/-- Spec-side description of DuplicatePairs, written from the spec's
words: each repeated row contributes the pair (identity of the first
earlier row with the same Key, identity of the repeated row). -/
def specPairs (cols : List Int) : List (List String) → List (List String) → List (String × String)
  | _, [] => []
  | past, row :: rest =>
    if buildKey cols row ∈ past.map (buildKey cols)
    then (((past.find? (fun r => decide (buildKey cols r = buildKey cols row))).map identity).getD "",
          identity row) :: specPairs cols (past ++ [row]) rest
    else specPairs cols (past ++ [row]) rest

/-! ### Helper lemmas -/

theorem parseAll_map_some (vs : List Int) : parseAll (vs.map some) = some vs := by
  induction vs with
  | nil => rfl
  | cons v rest ih => simp [parseAll, ih]

theorem parseAll_of_mem_none (parts : List (Option Int)) (h : none ∈ parts) :
    parseAll parts = none := by
  induction parts with
  | nil => cases h
  | cons p rest ih =>
    cases p with
    | none => rfl
    | some v =>
      rcases List.mem_cons.mp h with h1 | h1
      · exact absurd h1 (by simp)
      · simp [parseAll, ih h1]

theorem length_intRange (start stop : Int) : (intRange start stop).length = (stop - start).toNat := by
  unfold intRange
  rw [List.length_map, List.length_range]

theorem get_intRange (start stop : Int) (i : Nat) (h : i < (intRange start stop).length) :
    (intRange start stop).get ⟨i, h⟩ = start + (i : Int) := by
  unfold intRange at h ⊢
  simp only [List.get_eq_getElem, List.getElem_map, List.getElem_range]

theorem intRange_eq_nil (start stop : Int) (h : stop ≤ start) : intRange start stop = [] := by
  have : (stop - start).toNat = 0 := by omega
  simp [intRange, this]

theorem getD_intRange (start stop : Int) (i : Nat) (h : i < (intRange start stop).length) :
    (intRange start stop).getD i 0 = start + (i : Int) := by
  rw [List.getD_eq_getElem _ _ h]
  exact get_intRange start stop i h

theorem parse_eq_of_raw (r_option : Option (List (Option Int))) (c_option : Option Int)
    (total_columns : Int) (columns : List Int)
    (h : rawColumns r_option c_option total_columns = some columns) :
    parse_columns_options r_option c_option total_columns =
      if (columns.filter (inTableRange total_columns)).isEmpty
      then Except.error ResolveError.noValidColumns
      else Except.ok (columns.filter (inTableRange total_columns)) := by
  unfold parse_columns_options
  rw [h]

theorem parse_eq_of_raw_none (r_option : Option (List (Option Int))) (c_option : Option Int)
    (total_columns : Int) (h : rawColumns r_option c_option total_columns = none) :
    parse_columns_options r_option c_option total_columns =
      Except.error ResolveError.invalidInteger := by
  unfold parse_columns_options
  rw [h]

theorem inTableRange_iff (total_columns col : Int) :
    inTableRange total_columns col = true ↔ 1 ≤ col ∧ col ≤ total_columns := by
  simp [inTableRange]

theorem dedupAux_nil (cols : List Int) (seen : List (List String × String)) :
    dedupAux cols [] seen = ([], []) := rfl

theorem dedupAux_cons_dup (cols : List Int) (row : List String) (rest : List (List String))
    (seen : List (List String × String)) (v : String)
    (h : lookupKey (buildKey cols row) seen = some v) :
    dedupAux cols (row :: rest) seen =
      ((dedupAux cols rest seen).1, (v, identity row) :: (dedupAux cols rest seen).2) := by
  simp [dedupAux, h]

theorem dedupAux_cons_new (cols : List Int) (row : List String) (rest : List (List String))
    (seen : List (List String × String))
    (h : lookupKey (buildKey cols row) seen = none) :
    dedupAux cols (row :: rest) seen =
      (row :: (dedupAux cols rest ((buildKey cols row, identity row) :: seen)).1,
       (dedupAux cols rest ((buildKey cols row, identity row) :: seen)).2) := by
  simp [dedupAux, h]

/-! ### C3: counting invariant -/

theorem dedupAux_length (cols : List Int) (rows : List (List String)) :
    ∀ seen, (dedupAux cols rows seen).1.length + (dedupAux cols rows seen).2.length
      = rows.length := by
  induction rows with
  | nil => intro seen; simp [dedupAux_nil]
  | cons row rest ih =>
    intro seen
    cases h : lookupKey (buildKey cols row) seen with
    | some v =>
      rw [dedupAux_cons_dup cols row rest seen v h]
      simp only [List.length_cons]
      have := ih seen
      omega
    | none =>
      rw [dedupAux_cons_new cols row rest seen h]
      simp only [List.length_cons]
      have := ih ((buildKey cols row, identity row) :: seen)
      omega

/-- C3: for every sequence of input rows and every resolved column list
(all positions at least 1), the number of kept rows plus the number of
logged duplicate pairs equals the number of input rows. -/
theorem dedup_count_invariant (rows : List (List String)) (cols : List Int)
    (hcols : ∀ c ∈ cols, 1 ≤ c) :
    (deduplicate rows cols).1.length + (deduplicate rows cols).2.length = rows.length :=
  dedupAux_length cols rows []

/-- Witness for C3 at a concrete input. -/
theorem dedup_count_invariant_witness :
    (deduplicate [["a","1"],["b","2"],["a","1"]] [1]).1.length
      + (deduplicate [["a","1"],["b","2"],["a","1"]] [1]).2.length = 3 :=
  dedup_count_invariant [["a","1"],["b","2"],["a","1"]] [1] (by decide)

/-! ### C2: the filter/validation contract of Resolve -/

/-- C2: for a well-formed input (the raw candidate list exists),
`parse_columns_options` succeeds with exactly the in-range values of
the raw candidate list — a non-empty sublist (order preserved) with
the multiplicity of every in-range value preserved — and fails with
the no-valid-columns error exactly when no raw candidate is within
`[1, total_columns]`. -/
theorem resolve_filter_spec (r_option : Option (List (Option Int))) (c_option : Option Int)
    (w : Int) (raw : List Int) (hraw : rawColumns r_option c_option w = some raw) :
    (∀ cols, parse_columns_options r_option c_option w = Except.ok cols →
      cols ≠ [] ∧ cols.Sublist raw ∧ (∀ v ∈ cols, 1 ≤ v ∧ v ≤ w)
        ∧ ∀ v : Int, 1 ≤ v → v ≤ w → cols.count v = raw.count v)
    ∧ (parse_columns_options r_option c_option w = Except.error ResolveError.noValidColumns
        ↔ ∀ v ∈ raw, ¬(1 ≤ v ∧ v ≤ w)) := by
  rw [parse_eq_of_raw r_option c_option w raw hraw]
  constructor
  · intro cols hcols
    by_cases hemp : (raw.filter (inTableRange w)).isEmpty
    · rw [if_pos hemp] at hcols
      cases hcols
    · rw [if_neg hemp] at hcols
      have hcols' : cols = raw.filter (inTableRange w) := by
        cases hcols; rfl
      subst hcols'
      refine ⟨?_, List.filter_sublist raw, ?_, ?_⟩
      · intro hnil
        rw [hnil] at hemp
        exact hemp rfl
      · intro v hv
        exact (inTableRange_iff w v).mp (List.mem_filter.mp hv).2
      · intro v h1 h2
        exact List.count_filter ((inTableRange_iff w v).mpr ⟨h1, h2⟩)
  · by_cases hemp : (raw.filter (inTableRange w)).isEmpty
    · rw [if_pos hemp]
      simp only [true_iff, List.isEmpty_iff] at hemp ⊢
      intro v hv h12
      have : v ∈ raw.filter (inTableRange w) :=
        List.mem_filter.mpr ⟨hv, (inTableRange_iff w v).mpr h12⟩
      rw [hemp] at this
      cases this
    · rw [if_neg hemp]
      constructor
      · intro h; cases h
      · intro hall
        exfalso
        apply hemp
        rw [List.isEmpty_iff, List.filter_eq_nil_iff]
        intro v hv
        rw [inTableRange_iff]
        exact hall v hv

/-- Witness for C2 at `startOrList = [3,5,8]`, no count, width 4: the
raw list parses, the call returns `[3]`, and the failure
characterisation holds. -/
theorem resolve_filter_spec_witness :
    ([3] : List Int) ≠ [] ∧ List.Sublist ([3] : List Int) [3, 5, 8] ∧
      (∀ v ∈ ([3] : List Int), 1 ≤ v ∧ v ≤ 4) ∧
      ∀ v : Int, 1 ≤ v → v ≤ 4 → List.count v [3] = List.count v [3, 5, 8] :=
  (resolve_filter_spec (some [some 3, some 5, some 8]) none 4 [3, 5, 8] rfl).1 [3] rfl

/-! ### C4: both options given -/

/-- C4: with both options supplied, only the first element of
`startOrList` is used: the raw candidate list is the consecutive run
of `count` integers beginning at that first element, and the tokens
after the first (valid or not) change nothing about the result. -/
theorem resolve_both_first_run (t : Int) (rest : List (Option Int)) (c w : Int) :
    rawColumns (some (some t :: rest)) (some c) w = some (intRange t (t + c))
    ∧ parse_columns_options (some (some t :: rest)) (some c) w
        = parse_columns_options (some [some t]) (some c) w
    ∧ (intRange t (t + c)).length = c.toNat
    ∧ ∀ i : Nat, i < (intRange t (t + c)).length →
        (intRange t (t + c)).getD i 0 = t + (i : Int) := by
  refine ⟨rfl, rfl, ?_, ?_⟩
  · rw [length_intRange]; omega
  · intro i h
    exact getD_intRange t (t + c) i h

/-- Witness for C4 at `startOrList = [3, <invalid>]`, count 2,
width 10: the run is `[3, 4]` and the invalid second token is ignored. -/
theorem resolve_both_first_run_witness :
    rawColumns (some [some 3, none]) (some 2) 10 = some (intRange 3 (3 + 2))
    ∧ parse_columns_options (some [some 3, none]) (some 2) 10
        = parse_columns_options (some [some 3]) (some 2) 10
    ∧ (intRange 3 (3 + 2)).length = (2 : Int).toNat
    ∧ (intRange 3 (3 + 2)).getD 0 0 = 3 + ((0 : Nat) : Int) :=
  ⟨(resolve_both_first_run 3 [none] 2 10).1,
   (resolve_both_first_run 3 [none] 2 10).2.1,
   (resolve_both_first_run 3 [none] 2 10).2.2.1,
   (resolve_both_first_run 3 [none] 2 10).2.2.2 0 (by decide)⟩

/-! ### C5: invalid tokens -/

/-- C5 counterexample: with count supplied and a non-integer token in
the second position of `startOrList`, Resolve succeeds (here with
`[3, 4]`) instead of failing with `InvalidColumnSpec`, because only
the first token is ever parsed. -/
theorem resolve_later_invalid_token_succeeds :
    parse_columns_options (some [some 3, none]) (some 2) 10 = Except.ok [3, 4] := by
  rfl

/-- C5 (amended): a non-integer token makes Resolve fail with the
invalid-integer error exactly on the tokens it actually parses: when
count is absent, any non-integer token triggers the failure; when
count is supplied, the failure is triggered when the *first* token is
non-integer. -/
theorem resolve_invalid_token_error (parts : List (Option Int)) (c w : Int) :
    (none ∈ parts →
      parse_columns_options (some parts) none w = Except.error ResolveError.invalidInteger)
    ∧ (parts.headD none = none →
      parse_columns_options (some parts) (some c) w = Except.error ResolveError.invalidInteger) := by
  constructor
  · intro h
    apply parse_eq_of_raw_none
    show parseAll parts = none
    exact parseAll_of_mem_none parts h
  · intro h
    apply parse_eq_of_raw_none
    show (match parts.headD none with
          | some start => some (intRange start (start + c))
          | none => none) = none
    rw [h]

/-- Witness for the amended C5 at `startOrList = [<invalid>]`. -/
theorem resolve_invalid_token_error_witness :
    parse_columns_options (some [none]) none 10 = Except.error ResolveError.invalidInteger
    ∧ parse_columns_options (some [none]) (some 2) 10 = Except.error ResolveError.invalidInteger :=
  ⟨(resolve_invalid_token_error [none] 2 10).1 (by simp),
   (resolve_invalid_token_error [none] 2 10).2 rfl⟩

/-! ### C6: totality of the engine on short rows -/

/-- C6: key building never fails: a key always has one component per
resolved column; a column position beyond the row's field count
contributes the empty string; the empty row gives an all-empty key;
and row `["x"]` with columns `[1, 2]` yields the key `("x", "")`. -/
theorem dedup_missing_field_empty :
    (∀ (cols : List Int) (row : List String), ∀ c ∈ cols, (row.length : Int) < c →
      field row (c - 1) = "")
    ∧ (∀ (cols : List Int) (row : List String), (buildKey cols row).length = cols.length)
    ∧ (∀ cols : List Int, buildKey cols [] = cols.map (fun _ => ""))
    ∧ buildKey [1, 2] ["x"] = ["x", ""] := by
  refine ⟨?_, ?_, ?_, rfl⟩
  · intro cols row c _ hlen
    unfold field
    rw [dif_neg]
    rintro ⟨h1, h2⟩
    omega
  · intro cols row
    unfold buildKey
    rw [List.length_map]
  · intro cols
    unfold buildKey
    apply List.map_congr_left
    intro c _
    unfold field
    rw [dif_neg]
    rintro ⟨h1, h2⟩
    simp at h2

/-- Witness for C6 at row `["x"]` and columns `[1, 2]`. -/
theorem dedup_missing_field_empty_witness :
    field ["x"] (2 - 1) = "" ∧ buildKey [1, 2] ["x"] = ["x", ""] :=
  ⟨dedup_missing_field_empty.1 [1, 2] ["x"] 2 (by simp) (by decide),
   dedup_missing_field_empty.2.2.2⟩

/-! ### C8: the raw candidate list in the remaining three branches -/

/-- C8: when count is absent the raw candidate list is the literal
`startOrList` (order and duplicates preserved); with only count given
it is the consecutive run `1, ..., count`; with neither it is the run
`1, ..., tableWidth`. -/
theorem resolve_raw_candidates (w : Int) :
    (∀ vs : List Int, rawColumns (some (vs.map some)) none w = some vs)
    ∧ (∀ c : Int, rawColumns none (some c) w = some (intRange 1 (1 + c))
        ∧ (intRange 1 (1 + c)).length = c.toNat
        ∧ ∀ i : Nat, i < (intRange 1 (1 + c)).length →
            (intRange 1 (1 + c)).getD i 0 = 1 + (i : Int))
    ∧ (rawColumns none none w = some (intRange 1 (w + 1))
        ∧ (intRange 1 (w + 1)).length = w.toNat
        ∧ ∀ i : Nat, i < (intRange 1 (w + 1)).length →
            (intRange 1 (w + 1)).getD i 0 = 1 + (i : Int)) := by
  refine ⟨?_, ?_, rfl, ?_, ?_⟩
  · intro vs
    show parseAll (vs.map some) = some vs
    exact parseAll_map_some vs
  · intro c
    refine ⟨rfl, ?_, ?_⟩
    · rw [length_intRange]; omega
    · intro i h
      exact getD_intRange 1 (1 + c) i h
  · rw [length_intRange]; omega
  · intro i h
    exact getD_intRange 1 (w + 1) i h

/-- Witness for C8 at width 4, literal list `[3, 5, 8]`, count 2. -/
theorem resolve_raw_candidates_witness :
    rawColumns (some [some 3, some 5, some 8]) none 4 = some [3, 5, 8]
    ∧ rawColumns none (some 2) 4 = some (intRange 1 (1 + 2))
    ∧ (intRange 1 (1 + 2)).getD 0 0 = 1 + ((0 : Nat) : Int)
    ∧ rawColumns none none 4 = some (intRange 1 (4 + 1))
    ∧ (intRange 1 (4 + 1)).getD 3 0 = 1 + ((3 : Nat) : Int) :=
  ⟨(resolve_raw_candidates 4).1 [3, 5, 8],
   ((resolve_raw_candidates 4).2.1 2).1,
   ((resolve_raw_candidates 4).2.1 2).2.2 0 (by decide),
   (resolve_raw_candidates 4).2.2.1,
   (resolve_raw_candidates 4).2.2.2.2 3 (by decide)⟩

/-! ### C9: later tokens never parsed when count is given -/

/-- C9: when both options are supplied and the first token of
`startOrList` is a valid integer, Resolve never reports the
invalid-integer error, whatever the later tokens are. -/
theorem resolve_both_no_invalid_integer_error (t : Int) (rest : List (Option Int)) (c w : Int) :
    parse_columns_options (some (some t :: rest)) (some c) w
      ≠ Except.error ResolveError.invalidInteger := by
  rw [parse_eq_of_raw (some (some t :: rest)) (some c) w (intRange t (t + c)) rfl]
  by_cases hemp : ((intRange t (t + c)).filter (inTableRange w)).isEmpty
  · rw [if_pos hemp]
    intro h
    cases h
  · rw [if_neg hemp]
    intro h
    cases h

/-- Witness for C9 at `startOrList = [3, <invalid>]`, count 2, width 10. -/
theorem resolve_both_no_invalid_integer_error_witness :
    parse_columns_options (some [some 3, none]) (some 2) 10
      ≠ Except.error ResolveError.invalidInteger :=
  resolve_both_no_invalid_integer_error 3 [none] 2 10

/-! ### C10: non-positive count -/

/-- C10: with a valid-or-absent `startOrList`, a supplied count ≤ 0
makes the consecutive run empty, so nothing survives the range filter
and Resolve fails with the no-valid-columns error. -/
theorem resolve_nonpositive_count_error (r_option : Option (List (Option Int))) (c w : Int)
    (hc : c ≤ 0) (hw : 1 ≤ w)
    (hr : r_option = none ∨ ∃ t rest, r_option = some (some t :: rest)) :
    (∃ raw, rawColumns r_option (some c) w = some raw ∧ raw = [])
    ∧ parse_columns_options r_option (some c) w = Except.error ResolveError.noValidColumns := by
  rcases hr with h | ⟨t, rest, h⟩ <;> subst h
  · have hnil : intRange 1 (1 + c) = [] := intRange_eq_nil 1 (1 + c) (by omega)
    refine ⟨⟨intRange 1 (1 + c), rfl, hnil⟩, ?_⟩
    rw [parse_eq_of_raw none (some c) w (intRange 1 (1 + c)) rfl, hnil]
    rfl
  · have hnil : intRange t (t + c) = [] := intRange_eq_nil t (t + c) (by omega)
    refine ⟨⟨intRange t (t + c), rfl, hnil⟩, ?_⟩
    rw [parse_eq_of_raw (some (some t :: rest)) (some c) w (intRange t (t + c)) rfl, hnil]
    rfl

/-- Witness for C10 at absent `startOrList`, count 0, width 5. -/
theorem resolve_nonpositive_count_error_witness :
    (∃ raw, rawColumns none (some 0) 5 = some raw ∧ raw = [])
    ∧ parse_columns_options none (some 0) 5 = Except.error ResolveError.noValidColumns :=
  resolve_nonpositive_count_error none 0 5 (by decide) (by decide) (Or.inl rfl)

/-! ### C1: the engine refines the spec-side description -/

theorem lookupKey_cons (k k2 : List String) (v : String) (seen : List (List String × String)) :
    lookupKey k ((k2, v) :: seen) = if k2 = k then some v else lookupKey k seen := rfl

theorem specKeep_cons (cols : List Int) (past : List (List String)) (row : List String)
    (rest : List (List String)) :
    specKeep cols past (row :: rest) =
      if buildKey cols row ∈ past.map (buildKey cols)
      then specKeep cols (past ++ [row]) rest
      else row :: specKeep cols (past ++ [row]) rest := rfl

theorem specPairs_cons (cols : List Int) (past : List (List String)) (row : List String)
    (rest : List (List String)) :
    specPairs cols past (row :: rest) =
      if buildKey cols row ∈ past.map (buildKey cols)
      then (((past.find? (fun r => decide (buildKey cols r = buildKey cols row))).map identity).getD "",
            identity row) :: specPairs cols (past ++ [row]) rest
      else specPairs cols (past ++ [row]) rest := rfl

theorem dedupAux_eq_spec (cols : List Int) (rows : List (List String)) :
    ∀ (past : List (List String)) (seen : List (List String × String)),
      (∀ k, lookupKey k seen
          = (past.find? (fun r => decide (buildKey cols r = k))).map identity) →
      dedupAux cols rows seen = (specKeep cols past rows, specPairs cols past rows) := by
  induction rows with
  | nil => intro past seen hseen; rfl
  | cons row rest ih =>
    intro past seen hseen
    by_cases hmem : buildKey cols row ∈ past.map (buildKey cols)
    · obtain ⟨r0, hr0mem, hr0key⟩ := List.mem_map.mp hmem
      have hfind : (past.find? (fun r => decide (buildKey cols r = buildKey cols row))).isSome := by
        rw [List.find?_isSome]
        exact ⟨r0, hr0mem, by simp [hr0key]⟩
      obtain ⟨r1, hr1⟩ := Option.isSome_iff_exists.mp hfind
      have hlook : lookupKey (buildKey cols row) seen = some (identity r1) := by
        rw [hseen, hr1]; rfl
      have hseen' : ∀ k, lookupKey k seen
          = ((past ++ [row]).find? (fun r => decide (buildKey cols r = k))).map identity := by
        intro k
        rw [List.find?_append]
        cases hf : past.find? (fun r => decide (buildKey cols r = k)) with
        | some v => rw [hseen, hf, Option.or_some]
        | none =>
          by_cases hk : buildKey cols row = k
          · exfalso
            subst hk
            rw [hr1] at hf
            cases hf
          · rw [hseen, hf, Option.none_or]
            simp [List.find?, hk]
      rw [dedupAux_cons_dup cols row rest seen (identity r1) hlook,
          ih (past ++ [row]) seen hseen',
          specKeep_cons, specPairs_cons, if_pos hmem, if_pos hmem, hr1]
      rfl
    · have hfind : past.find? (fun r => decide (buildKey cols r = buildKey cols row)) = none := by
        rw [List.find?_eq_none]
        intro r hr
        simp only [decide_eq_true_eq]
        intro hkey
        exact hmem (List.mem_map.mpr ⟨r, hr, hkey⟩)
      have hlook : lookupKey (buildKey cols row) seen = none := by
        rw [hseen, hfind]; rfl
      have hseen' : ∀ k, lookupKey k ((buildKey cols row, identity row) :: seen)
          = ((past ++ [row]).find? (fun r => decide (buildKey cols r = k))).map identity := by
        intro k
        rw [List.find?_append, lookupKey_cons]
        by_cases hk : buildKey cols row = k
        · subst hk
          rw [if_pos rfl, hfind, Option.none_or]
          simp [List.find?]
        · rw [if_neg hk, hseen k]
          cases hf : past.find? (fun r => decide (buildKey cols r = k)) with
          | some v => rw [Option.or_some]
          | none =>
            rw [Option.none_or]
            simp [List.find?, hk]
      rw [dedupAux_cons_new cols row rest seen hlook,
          ih (past ++ [row]) _ hseen',
          specKeep_cons, specPairs_cons, if_neg hmem, if_neg hmem]

theorem dedupAux_fst_sublist (cols : List Int) (rows : List (List String)) :
    ∀ seen, (dedupAux cols rows seen).1.Sublist rows := by
  induction rows with
  | nil => intro seen; exact List.Sublist.refl []
  | cons row rest ih =>
    intro seen
    cases hlook : lookupKey (buildKey cols row) seen with
    | some v =>
      rw [dedupAux_cons_dup cols row rest seen v hlook]
      exact List.Sublist.cons row (ih seen)
    | none =>
      rw [dedupAux_cons_new cols row rest seen hlook]
      exact List.Sublist.cons₂ row (ih _)

/-- C1: the single pass of the engine computes exactly the spec-side
description: the kept rows are those whose key does not occur among
the keys of the earlier rows, in input order (a sublist of the input),
and each repeated row is logged as (identity of the first earlier row
with the same key, identity of the repeat), in input order. -/
theorem deduplicate_eq_spec (rows : List (List String)) (cols : List Int)
    (hcols : ∀ c ∈ cols, 1 ≤ c) :
    deduplicate rows cols = (specKeep cols [] rows, specPairs cols [] rows)
    ∧ (deduplicate rows cols).1.Sublist rows :=
  ⟨dedupAux_eq_spec cols rows [] [] (fun _ => rfl), dedupAux_fst_sublist cols rows []⟩

/-- Witness for C1 on the spec's end-to-end example. -/
theorem deduplicate_eq_spec_witness :
    deduplicate [["a","1"],["b","2"],["a","1"],["c","3"],["a","9"]] [1]
      = (specKeep [1] [] [["a","1"],["b","2"],["a","1"],["c","3"],["a","9"]],
         specPairs [1] [] [["a","1"],["b","2"],["a","1"],["c","3"],["a","9"]])
    ∧ (deduplicate [["a","1"],["b","2"],["a","1"],["c","3"],["a","9"]] [1]).1.Sublist
        [["a","1"],["b","2"],["a","1"],["c","3"],["a","9"]] :=
  deduplicate_eq_spec [["a","1"],["b","2"],["a","1"],["c","3"],["a","9"]] [1] (by decide)

/-! ### C7: idempotence -/

theorem dedupAux_keys_nodup (cols : List Int) (rows : List (List String)) :
    ∀ seen, ((dedupAux cols rows seen).1.map (buildKey cols)).Nodup
      ∧ ∀ r ∈ (dedupAux cols rows seen).1, lookupKey (buildKey cols r) seen = none := by
  induction rows with
  | nil =>
    intro seen
    exact ⟨List.nodup_nil, fun r hr => absurd hr (List.not_mem_nil r)⟩
  | cons row rest ih =>
    intro seen
    cases hlook : lookupKey (buildKey cols row) seen with
    | some v =>
      rw [dedupAux_cons_dup cols row rest seen v hlook]
      exact ih seen
    | none =>
      rw [dedupAux_cons_new cols row rest seen hlook]
      obtain ⟨hnd, hall⟩ := ih ((buildKey cols row, identity row) :: seen)
      have hsplit : ∀ r ∈ (dedupAux cols rest ((buildKey cols row, identity row) :: seen)).1,
          buildKey cols row ≠ buildKey cols r ∧ lookupKey (buildKey cols r) seen = none := by
        intro r hr
        have h := hall r hr
        rw [lookupKey_cons] at h
        by_cases hk : buildKey cols row = buildKey cols r
        · rw [if_pos hk] at h; cases h
        · rw [if_neg hk] at h; exact ⟨hk, h⟩
      constructor
      · rw [List.map_cons, List.nodup_cons]
        refine ⟨?_, hnd⟩
        intro hmem
        obtain ⟨r, hr, hkey⟩ := List.mem_map.mp hmem
        exact (hsplit r hr).1 hkey.symm
      · intro r hr
        rcases List.mem_cons.mp hr with h | h
        · subst h; exact hlook
        · exact (hsplit r h).2

theorem dedupAux_of_nodup (cols : List Int) (rows : List (List String)) :
    ∀ seen, (rows.map (buildKey cols)).Nodup →
      (∀ r ∈ rows, lookupKey (buildKey cols r) seen = none) →
      dedupAux cols rows seen = (rows, []) := by
  induction rows with
  | nil => intro seen _ _; rfl
  | cons row rest ih =>
    intro seen hnd hall
    have hlook := hall row (List.mem_cons_self row rest)
    rw [List.map_cons, List.nodup_cons] at hnd
    have hall' : ∀ r ∈ rest,
        lookupKey (buildKey cols r) ((buildKey cols row, identity row) :: seen) = none := by
      intro r hr
      rw [lookupKey_cons, if_neg, hall r (List.mem_cons_of_mem row hr)]
      intro heq
      exact hnd.1 (List.mem_map.mpr ⟨r, hr, heq.symm⟩)
    rw [dedupAux_cons_new cols row rest seen hlook, ih _ hnd.2 hall']

/-- C7: the engine is idempotent: a second pass over the kept rows
with the same columns keeps all of them and logs no duplicate pair. -/
theorem deduplicate_idempotent (rows : List (List String)) (cols : List Int)
    (hcols : ∀ c ∈ cols, 1 ≤ c) :
    deduplicate (deduplicate rows cols).1 cols = ((deduplicate rows cols).1, []) :=
  dedupAux_of_nodup cols (deduplicate rows cols).1 []
    (dedupAux_keys_nodup cols rows []).1 (fun _ _ => rfl)

/-- Witness for C7 on the spec's end-to-end example. -/
theorem deduplicate_idempotent_witness :
    deduplicate (deduplicate [["a","1"],["b","2"],["a","1"],["c","3"],["a","9"]] [1]).1 [1]
      = ((deduplicate [["a","1"],["b","2"],["a","1"],["c","3"],["a","9"]] [1]).1, []) :=
  deduplicate_idempotent [["a","1"],["b","2"],["a","1"],["c","3"],["a","9"]] [1] (by decide)

end CsvDedup
